import Mathlib

/-!
Verification of the Google Docs parser service (Data-Extractor).

The development shallowly embeds the pure logic of the repository:

* `src/googleDocParser.js`: `extractDocId`, the response/failure
  classification of `downloadDoc`, and the two-pass keyword extractor
  `extractStructuredData`.
* `src/server.js`: the request validation and error-message-to-status
  mapping of the `POST /parse-doc` endpoint.

JavaScript strings are modelled by `String` (lists of characters);
JavaScript string primitives (`trim`, `toLowerCase`, `indexOf`,
`includes`, `slice`, `Array.join`) are embedded as executable functions
below.  The DOM produced by cheerio is abstracted as a list of selected
elements (`p, h1, h2, h3, ul, table`), each carrying the text content
that `$(elem).text()` would return and, for `ul`/`table` elements, the
text of their `li` respectively `th/td` descendants in document order.
-/

/-! ## JavaScript string primitives -/

/-- The whitespace characters recognised by the JavaScript `\s` class and
`String.prototype.trim` (restricted to the ASCII range). -/
def isWsChar (c : Char) : Bool :=
  c = ' ' || c = '\t' || c = '\n' || c = '\r' || c = '\x0b' || c = '\x0c'

/-- JavaScript `String.prototype.trim`: remove leading and trailing
whitespace. -/
def jsTrimL (l : List Char) : List Char :=
  ((l.dropWhile isWsChar).reverse.dropWhile isWsChar).reverse

/-- JavaScript `String.prototype.trim` on `String`. -/
def jsTrim (s : String) : String :=
  ⟨jsTrimL s.data⟩

/-- JavaScript `String.prototype.toLowerCase` (ASCII range). -/
def jsToLower (s : String) : String :=
  ⟨s.data.map Char.toLower⟩

/-- Auxiliary scan for `indexOf`: first index (counting from `i`) at which
`sub` occurs in the haystack. -/
def jsIndexOfAux (sub : List Char) : List Char → Nat → Option Nat
  | [], i => if sub.isPrefixOf ([] : List Char) then some i else none
  | c :: t, i => if sub.isPrefixOf (c :: t) then some i else jsIndexOfAux sub t (i + 1)

/-- JavaScript `String.prototype.indexOf`, with `none` standing for the
JavaScript result `-1`. -/
def jsIndexOf (hay sub : String) : Option Nat :=
  jsIndexOfAux sub.data hay.data 0

/-- JavaScript `String.prototype.includes`. -/
def jsIncludes (hay sub : String) : Bool :=
  (jsIndexOf hay sub).isSome

/-- JavaScript `String.prototype.slice(n)` (single non-negative argument). -/
def jsSliceFrom (s : String) (n : Nat) : String :=
  ⟨s.data.drop n⟩

/-- Auxiliary for `replace(/\s+/g, ' ')`: collapse every maximal run of
whitespace characters to a single space.  The flag records whether the
previous character belonged to a whitespace run. -/
def collapseWsAux : Bool → List Char → List Char
  | _, [] => []
  | prevWs, c :: t =>
    if isWsChar c then
      if prevWs then collapseWsAux true t
      else ' ' :: collapseWsAux true t
    else c :: collapseWsAux false t

/-- `normalizeText` from `extractStructuredData`:
`text.replace(/\s+/g, ' ').trim().toLowerCase()`. -/
def normalizeText (s : String) : String :=
  jsToLower (jsTrim ⟨collapseWsAux false s.data⟩)

/-- JavaScript `Array.prototype.join(sep)`. -/
def jsJoin (sep : String) : List String → String
  | [] => ""
  | [x] => x
  | x :: y :: xs => x ++ sep ++ jsJoin sep (y :: xs)

/-! ## The structured-data mapping -/

/-- The `structuredData` object: an insertion-ordered string-keyed map. -/
abbrev KVMap := List (String × String)

/-- JavaScript object assignment `m[k] = v`: overwrite the value if the key
is present (keeping its position), otherwise append the binding. -/
def setKV : KVMap → String → String → KVMap
  | [], k, v => [(k, v)]
  | (k', v') :: t, k, v => if k' = k then (k, v) :: t else (k', v') :: setKV t k v

/-! ## The DOM abstraction -/

/-- The element kinds matched by the selector `'p, h1, h2, h3, ul, table'`. -/
inductive Tag
  | p | h1 | h2 | h3 | ul | table
deriving DecidableEq, Repr

/-- A selected DOM element: its tag, the text content `$(elem).text()`
would return, and — for `ul` (resp. `table`) elements — the text content
of each `li` (resp. `th`/`td`) descendant in document order.  For the
other kinds `parts` is unused. -/
structure Elem where
  tag : Tag
  text : String
  parts : List String
deriving DecidableEq, Repr

/-- A caller-supplied keyword together with its normalized form, as built
by `extractStructuredData`'s keyword preprocessing. -/
structure NKeyword where
  original : String
  normalized : String
deriving DecidableEq, Repr

/-- Keyword preprocessing of `extractStructuredData`: drop keywords whose
trimmed form is empty, and pair each survivor with
`k.toLowerCase().trim()`. -/
def normalizeKeywords (ks : List String) : List NKeyword :=
  (ks.filter (fun k => jsTrim k ≠ "")).map (fun k => ⟨k, jsTrim (jsToLower k)⟩)

/-! ## Pass 1: the inline `Keyword: value` pattern -/

/-- The value the first pass would record for one keyword against one
element text (`rawText` is the trimmed element text): find the first
occurrence of the normalized keyword in the lowercased text, look for a
colon in the remainder after it, and take the trimmed text after that
colon if non-empty. -/
def inlineValue (kw : NKeyword) (rawText : String) : Option String :=
  if jsIncludes (jsToLower rawText) kw.normalized then
    match jsIndexOf (jsToLower rawText) kw.normalized with
    | none => none
    | some idx =>
      match jsIndexOf (jsSliceFrom rawText (idx + kw.normalized.length)) ":" with
      | none => none
      | some colonIndex =>
        if jsTrim (jsSliceFrom (jsSliceFrom rawText (idx + kw.normalized.length)) (colonIndex + 1)) ≠ "" then
          some (jsTrim (jsSliceFrom (jsSliceFrom rawText (idx + kw.normalized.length)) (colonIndex + 1)))
        else none
  else none

/-- One keyword step of the first pass: record the inline value under the
keyword's original form when one is produced. -/
def pass1Kw (rawText : String) (m : KVMap) (kw : NKeyword) : KVMap :=
  match inlineValue kw rawText with
  | some v => setKV m kw.original v
  | none => m

/-- One element step of the first pass: skip elements with empty trimmed
text, otherwise run every keyword against the element text. -/
def pass1Elem (kws : List NKeyword) (m : KVMap) (e : Elem) : KVMap :=
  if jsTrim e.text = "" then m
  else kws.foldl (pass1Kw (jsTrim e.text)) m

/-- The whole first pass over the selected elements in document order. -/
def pass1 (elems : List Elem) (kws : List NKeyword) : KVMap :=
  elems.foldl (pass1Elem kws) []

/-! ## Pass 2: the label / value pattern -/

/-- The value text the second pass derives from an element (`rawText` is
the trimmed element text): for a `ul`, the non-empty trimmed `li` texts
joined with `" | "`; for a `table`, the non-empty trimmed `th`/`td` texts
joined with `" | "`; for any other selected kind, the trimmed text
itself. -/
def elemValueText (e : Elem) (rawText : String) : String :=
  match e.tag with
  | Tag.ul => jsJoin " | " ((e.parts.map jsTrim).filter (fun s => s ≠ ""))
  | Tag.table => jsJoin " | " ((e.parts.map jsTrim).filter (fun s => s ≠ ""))
  | _ => rawText

/-- Label detection when no label is pending: the first keyword whose
normalized form equals the element's normalized text, provided the raw
trimmed text contains no colon. -/
def findLabel (kws : List NKeyword) (normalizedElemText rawText : String) : Option NKeyword :=
  kws.find? (fun kw => normalizedElemText == kw.normalized && !(jsIncludes rawText ":"))

/-- One element step of the second pass, acting on the pair of the
accumulated mapping and the pending-label slot. -/
def pass2Step (kws : List NKeyword) : KVMap × Option NKeyword → Elem → KVMap × Option NKeyword
  | (m, pending), e =>
    if jsTrim e.text = "" then (m, pending)
    else
      match pending with
      | some lbl =>
        if normalizeText (jsTrim e.text) = lbl.normalized then (m, some lbl)
        else if elemValueText e (jsTrim e.text) ≠ "" then
          (setKV m lbl.original (elemValueText e (jsTrim e.text)), none)
        else (m, some lbl)
      | none =>
        match findLabel kws (normalizeText (jsTrim e.text)) (jsTrim e.text) with
        | some kw => (m, some kw)
        | none => (m, none)

/-- The whole second pass, starting from the mapping produced by the first
pass and an empty pending slot. -/
def pass2 (elems : List Elem) (kws : List NKeyword) (m0 : KVMap) : KVMap :=
  (elems.foldl (pass2Step kws) (m0, none)).1

/-- `extractStructuredData`: preprocess the keywords, then run the inline
pass followed by the label/value pass, both writing into the same
mapping. -/
def extractStructuredData (elems : List Elem) (ks : List String) : KVMap :=
  let kws := normalizeKeywords ks
  pass2 elems kws (pass1 elems kws)

/-! ## `extractDocId` -/

/-- The fixed part of the Google Docs URL pattern that follows the scheme:
the regex in `extractDocId` is
`https?:\/\/docs\.google\.com\/document\/d\/([^/]+)`. -/
def gdocCore : String := "://docs.google.com/document/d/"

/-- Match the part of the pattern after the (already consumed) scheme at
the start of `s`: the fixed `gdocCore` text followed by the capture
`[^/]+` (one or more characters other than a slash, greedy). -/
def matchAfterScheme (s : List Char) : Option (List Char) :=
  if gdocCore.data.isPrefixOf s then
    let cap := (s.drop gdocCore.data.length).takeWhile (fun c => c ≠ '/')
    if cap.isEmpty then none else some cap
  else none

/-- Try to match the whole regex at the start of `s`: the literal `http`,
an optional `s` (a greedy `s?` whose backtracking alternative can never
succeed because `gdocCore` starts with a colon), then the rest of the
pattern. -/
def tryMatchAt (s : List Char) : Option (List Char) :=
  match s with
  | 'h' :: 't' :: 't' :: 'p' :: 's' :: rest => matchAfterScheme rest
  | 'h' :: 't' :: 't' :: 'p' :: rest => matchAfterScheme rest
  | _ => none

/-- Unanchored regex search, as performed by `String.prototype.match`:
try every start position from left to right. -/
def regexSearchGDoc : List Char → Option (List Char)
  | [] => none
  | c :: t =>
    match tryMatchAt (c :: t) with
    | some cap => some cap
    | none => regexSearchGDoc t

/-- `extractDocId`: reject empty (after trimming) input, search for the
Google Docs URL pattern, and return the captured document ID.  (The
JavaScript `typeof url !== 'string'` guard is absorbed by typing the
input as a string; `!match[1]` is unreachable since the capture is
non-empty by construction.) -/
def extractDocId (url : String) : Except String String :=
  if jsTrim url = "" then Except.error "Invalid URL: URL must be a non-empty string."
  else
    match regexSearchGDoc url.data with
    | some cap => Except.ok ⟨cap⟩
    | none => Except.error "Invalid Google Docs URL: Unable to extract document ID."

/-- The specification's reading of "a string matching the pattern
`https?://docs.google.com/document/d/<ID>/...`": somewhere in the string
the scheme, the fixed core and a non-empty slash-free ID segment occur. -/
def gdocPattern (u : String) : Prop :=
  ∃ pre sOpt id suf : List Char,
    (sOpt = "http".data ∨ sOpt = "https".data) ∧ id ≠ [] ∧ (∀ c ∈ id, c ≠ '/') ∧
    u.data = pre ++ sOpt ++ gdocCore.data ++ id ++ suf

/-! ## `downloadDoc` response/failure classification -/

/-- The outcome of the underlying HTTP exchange for the export URL:
either a response (any status) with its `content-type` header, or a
network-level failure with the client's error message. -/
inductive HttpResult
  | response (status : Nat) (contentType : Option String)
  | netError (message : String)

/-- An axios rejection value: the error message and, when a response was
received, its status (`err.response.status`). -/
structure AxiosError where
  message : String
  responseStatus : Option Nat
deriving DecidableEq, Repr

/-- A resolved axios response (status and `content-type` header). -/
structure Resp where
  status : Nat
  contentType : Option String
deriving DecidableEq, Repr

/-- The axios layer as configured by `downloadDoc`: `validateStatus`
accepts exactly the statuses in `[200, 400)`, so any other status is
raised as an `AxiosError` carrying the response status and the library
message `Request failed with status code N`; a network failure is raised
without a response. -/
def axiosResult : HttpResult → Except AxiosError Resp
  | HttpResult.response st ct =>
    if 200 ≤ st ∧ st < 400 then Except.ok ⟨st, ct⟩
    else Except.error ⟨"Request failed with status code " ++ toString st, some st⟩
  | HttpResult.netError msg => Except.error ⟨msg, none⟩

/-- The DOCX MIME type tested against the `content-type` header. -/
def docxMime : String :=
  "application/vnd.openxmlformats-officedocument.wordprocessingml.document"

/-- `contentType && contentType.includes(docxMime)`. -/
def ctIsDocx : Option String → Bool
  | none => false
  | some ct => jsIncludes ct docxMime

/-- The `try` block of `downloadDoc` applied to a resolved response:
reject statuses 401/403 with the unauthorized message, reject non-DOCX
content types with the unexpected-response message, accept otherwise. -/
def downloadTry (r : Resp) : Except String Unit :=
  if r.status = 401 ∨ r.status = 403 then
    Except.error "Unauthorized access: The Google Doc is not publicly accessible or requires authentication."
  else if !(ctIsDocx r.contentType) then
    Except.error "Unexpected response from Google Docs. The document may not be publicly accessible or the URL may be invalid."
  else Except.ok ()

/-- The `catch` block of `downloadDoc`: a 404 response status becomes the
not-found message; an error whose own message contains
`unauthorized access` (case-insensitively) is rethrown unchanged; any
other error is wrapped in the generic failed-to-download message. -/
def downloadCatch (e : AxiosError) : String :=
  if e.responseStatus = some 404 then
    "Document not found: Please verify the Google Docs URL."
  else if jsIncludes (jsToLower e.message) "unauthorized access" then
    e.message
  else
    "Failed to download document from Google Docs: " ++ e.message

/-- The classification `downloadDoc` applies to the outcome of the HTTP
exchange (URL parsing and temp-file handling are outside this model): a
rejection from the axios layer, or an error thrown inside the `try`
block (which carries no response), is routed through the `catch`
block. -/
def downloadDoc (r : HttpResult) : Except String Unit :=
  match axiosResult r with
  | Except.error e => Except.error (downloadCatch e)
  | Except.ok resp =>
    match downloadTry resp with
    | Except.ok _ => Except.ok ()
    | Except.error m => Except.error (downloadCatch ⟨m, none⟩)

/-! ## The `POST /parse-doc` endpoint -/

/-- A JSON value as seen by the Express handler (array and object
payloads are irrelevant to the handler's logic and are not recorded). -/
inductive JVal
  | jnull
  | jbool (b : Bool)
  | jnum (n : Int)
  | jstr (s : String)
  | jarr
  | jobj
deriving DecidableEq, Repr

/-- JavaScript truthiness of a JSON value (`NaN` does not arise from
JSON numbers modelled as integers). -/
def truthy : JVal → Bool
  | JVal.jnull => false
  | JVal.jbool b => b
  | JVal.jnum n => n ≠ 0
  | JVal.jstr s => s ≠ ""
  | JVal.jarr => true
  | JVal.jobj => true

/-- Truthiness of a possibly absent (`undefined`) field. -/
def truthyOpt : Option JVal → Bool
  | none => false
  | some v => truthy v

/-- `typeof x === 'string'` for a possibly absent field. -/
def isStringV : Option JVal → Bool
  | some (JVal.jstr _) => true
  | _ => false

/-- `Array.isArray(x)` for a possibly absent field. -/
def isArrayV : Option JVal → Bool
  | some JVal.jarr => true
  | _ => false

/-- The request body fields destructured by the handler; `none` models an
absent (`undefined`) field. -/
structure ReqBody where
  url : Option JVal
  keywords : Option JVal
deriving DecidableEq, Repr

/-- The error-message-to-status mapping of the `catch` branch of
`POST /parse-doc`, checked in source order. -/
def mapErrorStatus (message : String) : Nat :=
  if jsIncludes message "Unauthorized access" || jsIncludes message "not publicly accessible" then 403
  else if jsIncludes message "Document not found" then 404
  else if jsIncludes message "Invalid Google Docs URL" then 400
  else 500

/-- The `POST /parse-doc` handler, given the request body and — when
validation passes — the outcome of `processGoogleDoc`.  Returns the HTTP
status and the error message sent as `{error: message}` (`none` for the
success body). -/
def parseDocResponse (body : ReqBody) (outcome : Except String Unit) : Nat × Option String :=
  if !(truthyOpt body.url) || !(isStringV body.url) then
    (400, some "Invalid request: \"url\" is required and must be a string.")
  else if truthyOpt body.keywords && !(isArrayV body.keywords) then
    (400, some "Invalid request: \"keywords\" must be an array of strings if provided.")
  else
    match outcome with
    | Except.ok _ => (200, none)
    | Except.error msg =>
      let message := if msg = "" then "Unknown error" else msg
      (mapErrorStatus message, some message)

deriving instance DecidableEq for Except

/-! ## Shared lemmas -/

/-- Writing a key with `setKV` makes the written value the one retrieved
for that key. -/
theorem lookup_setKV_self (k v : String) : ∀ m : KVMap, (setKV m k v).lookup k = some v := by
  intro m
  induction m with
  | nil => simp [setKV, List.lookup]
  | cons p t ih =>
    obtain ⟨k', v'⟩ := p
    by_cases h : k' = k
    · subst h
      simp [setKV, List.lookup]
    · simp only [setKV, if_neg h, List.lookup]
      rw [beq_eq_false_iff_ne.2 (Ne.symm h)]
      exact ih

/-- Every binding of `setKV m k v` is either an old binding of `m` or the
new binding `(k, v)`. -/
theorem mem_setKV (k v : String) (q : String × String) :
    ∀ m : KVMap, q ∈ setKV m k v → q ∈ m ∨ q = (k, v) := by
  intro m
  induction m with
  | nil =>
    intro hq
    simp [setKV] at hq
    exact Or.inr hq
  | cons p t ih =>
    obtain ⟨k', v'⟩ := p
    intro hq
    by_cases h : k' = k
    · simp only [setKV, if_pos h] at hq
      rcases List.mem_cons.1 hq with hq2 | hq2
      · exact Or.inr hq2
      · exact Or.inl (List.mem_cons_of_mem _ hq2)
    · simp only [setKV, if_neg h] at hq
      rcases List.mem_cons.1 hq with hq2 | hq2
      · exact Or.inl (List.mem_cons.2 (Or.inl hq2))
      · rcases ih hq2 with h2 | h2
        · exact Or.inl (List.mem_cons_of_mem _ h2)
        · exact Or.inr h2

/-- If the whole haystack drops to a nonempty list under `dropWhile p`,
its head falsifies `p`. -/
theorem dropWhile_head_false {p : Char → Bool} :
    ∀ {l : List Char} {c : Char} {t : List Char}, l.dropWhile p = c :: t → p c = false := by
  intro l
  induction l with
  | nil =>
    intro c t h
    simp [List.dropWhile] at h
  | cons a as ih =>
    intro c t h
    rw [List.dropWhile_cons] at h
    by_cases hp : p a
    · rw [if_pos hp] at h
      exact ih h
    · rw [if_neg hp] at h
      cases h
      simpa using hp

/-- A string trims to empty exactly when all its characters are
whitespace. -/
theorem jsTrim_eq_empty_iff (s : String) :
    jsTrim s = "" ↔ ∀ c ∈ s.data, isWsChar c = true := by
  rw [String.ext_iff]
  show jsTrimL s.data = [] ↔ _
  unfold jsTrimL
  rw [List.reverse_eq_nil_iff, List.dropWhile_eq_nil_iff]
  constructor
  · intro h c hc
    rw [← List.takeWhile_append_dropWhile isWsChar s.data] at hc
    rcases List.mem_append.1 hc with h1 | h2
    · exact List.mem_takeWhile_imp h1
    · exact h c (List.mem_reverse.2 h2)
  · intro h c hc
    exact h c ((List.dropWhile_sublist isWsChar).mem (List.mem_reverse.1 hc))

/-- A nonempty trim result contains a non-whitespace character. -/
theorem exists_nonWs_of_jsTrim_ne (s : String) (h : jsTrim s ≠ "") :
    ∃ c ∈ (jsTrim s).data, isWsChar c = false := by
  have hne : jsTrimL s.data ≠ [] := by
    intro h0
    exact h (String.ext_iff.2 h0)
  unfold jsTrimL at hne
  rcases hd : ((s.data.dropWhile isWsChar).reverse.dropWhile isWsChar) with _ | ⟨c, t⟩
  · rw [hd] at hne
    simp at hne
  · refine ⟨c, ?_, dropWhile_head_false hd⟩
    show c ∈ (jsTrim s).data
    show c ∈ ((s.data.dropWhile isWsChar).reverse.dropWhile isWsChar).reverse
    rw [hd]
    simp

/-- A string containing a non-whitespace character does not trim to
empty. -/
theorem jsTrim_ne_of_nonWs (s : String) (c : Char) (hc : c ∈ s.data)
    (hw : isWsChar c = false) : jsTrim s ≠ "" := by
  intro h
  rw [jsTrim_eq_empty_iff] at h
  rw [h c hc] at hw
  cases hw

/-- Trimming is idempotent as far as non-emptiness is concerned. -/
theorem jsTrim_jsTrim_ne (s : String) (h : jsTrim s ≠ "") : jsTrim (jsTrim s) ≠ "" := by
  obtain ⟨c, hc, hw⟩ := exists_nonWs_of_jsTrim_ne s h
  exact jsTrim_ne_of_nonWs (jsTrim s) c hc hw

/-- When the normalized keyword occurs in the lowercased text and a colon
follows the occurrence with a non-empty trimmed remainder, `inlineValue`
produces that remainder. -/
theorem inlineValue_eq_some (kw : NKeyword) (raw : String) (idx ci : Nat)
    (hocc : jsIndexOf (jsToLower raw) kw.normalized = some idx)
    (hci : jsIndexOf (jsSliceFrom raw (idx + kw.normalized.length)) ":" = some ci)
    (hv : jsTrim (jsSliceFrom (jsSliceFrom raw (idx + kw.normalized.length)) (ci + 1)) ≠ "") :
    inlineValue kw raw
      = some (jsTrim (jsSliceFrom (jsSliceFrom raw (idx + kw.normalized.length)) (ci + 1))) := by
  simp [inlineValue, jsIncludes, hocc, hci, hv]

/-- When the normalized keyword occurs in the lowercased text but no colon
follows the occurrence, `inlineValue` produces nothing. -/
theorem inlineValue_eq_none (kw : NKeyword) (raw : String) (idx : Nat)
    (hocc : jsIndexOf (jsToLower raw) kw.normalized = some idx)
    (hci : jsIndexOf (jsSliceFrom raw (idx + kw.normalized.length)) ":" = none) :
    inlineValue kw raw = none := by
  simp [inlineValue, jsIncludes, hocc, hci]

/-- C1: Pass-1 inline extraction.  For an element text and a supplied
keyword `k` (with normalized form `k.toLowerCase().trim()`): if the
lowercased text contains the normalized keyword, with first occurrence
at `idx`, and the remainder after the occurrence contains a colon at
`ci`, then the trimmed text after that colon — when non-empty — is
recorded under `k` itself; if no colon follows the occurrence, nothing
is recorded for this element/keyword pair.  In particular, the document
`<p>Customer Name: John Doe</p>` with keyword `"Customer Name"` yields
`{"Customer Name": "John Doe"}`. -/
theorem C1_pass1_inline (k raw : String) (m : KVMap) (idx : Nat)
    (hocc : jsIndexOf (jsToLower raw) (jsTrim (jsToLower k)) = some idx) :
    (∀ ci : Nat,
      jsIndexOf (jsSliceFrom raw (idx + (jsTrim (jsToLower k)).length)) ":" = some ci →
      jsTrim (jsSliceFrom (jsSliceFrom raw (idx + (jsTrim (jsToLower k)).length)) (ci + 1)) ≠ "" →
      (pass1Kw raw m ⟨k, jsTrim (jsToLower k)⟩).lookup k
        = some (jsTrim (jsSliceFrom (jsSliceFrom raw (idx + (jsTrim (jsToLower k)).length)) (ci + 1)))) ∧
    (jsIndexOf (jsSliceFrom raw (idx + (jsTrim (jsToLower k)).length)) ":" = none →
      pass1Kw raw m ⟨k, jsTrim (jsToLower k)⟩ = m) ∧
    extractStructuredData [⟨Tag.p, "Customer Name: John Doe", []⟩] ["Customer Name"]
      = [("Customer Name", "John Doe")] := by
  refine ⟨?_, ?_, by decide⟩
  · intro ci hci hv
    have h := inlineValue_eq_some ⟨k, jsTrim (jsToLower k)⟩ raw idx ci hocc hci hv
    simp only [pass1Kw, h]
    exact lookup_setKV_self k _ m
  · intro hci
    have h := inlineValue_eq_none ⟨k, jsTrim (jsToLower k)⟩ raw idx hocc hci
    simp only [pass1Kw, h]

/-- Witness for C1 on the spec's example. -/
theorem C1_witness :
    (pass1Kw "Customer Name: John Doe" []
        ⟨"Customer Name", jsTrim (jsToLower "Customer Name")⟩).lookup "Customer Name"
      = some (jsTrim (jsSliceFrom
          (jsSliceFrom "Customer Name: John Doe"
            (0 + (jsTrim (jsToLower "Customer Name")).length)) (0 + 1))) :=
  (C1_pass1_inline "Customer Name" "Customer Name: John Doe" [] 0 (by decide)).1
    0 (by decide) (by decide)

/-- C2: Pass-2 label/value extraction.  When a label is pending and the
next element has non-empty trimmed text whose normalized form differs
from the pending label's, the element becomes the value: derived per
element kind (`ul` joins its non-empty trimmed `li` texts with `" | "`,
`table` joins its non-empty trimmed cell texts with `" | "`, any other
kind uses the trimmed text); a non-empty derived value is recorded under
the pending keyword's original form and clears the pending slot, while
an empty derived value leaves the label pending.  In particular
`<h2>Product title</h2><p>Widget X</p>` with keyword `"Product title"`
yields `{"Product title": "Widget X"}`. -/
theorem C2_label_value (kws : List NKeyword) (m : KVMap) (lbl : NKeyword) (e : Elem)
    (hne : jsTrim e.text ≠ "")
    (hdiff : normalizeText (jsTrim e.text) ≠ lbl.normalized) :
    (elemValueText e (jsTrim e.text) ≠ "" →
      pass2Step kws (m, some lbl) e
        = (setKV m lbl.original (elemValueText e (jsTrim e.text)), none)) ∧
    (elemValueText e (jsTrim e.text) = "" →
      pass2Step kws (m, some lbl) e = (m, some lbl)) ∧
    (∀ (t : String) (parts : List String) (raw : String),
      elemValueText ⟨Tag.ul, t, parts⟩ raw
        = jsJoin " | " ((parts.map jsTrim).filter (fun s => s ≠ ""))) ∧
    (∀ (t : String) (parts : List String) (raw : String),
      elemValueText ⟨Tag.table, t, parts⟩ raw
        = jsJoin " | " ((parts.map jsTrim).filter (fun s => s ≠ ""))) ∧
    (∀ (t : String) (parts : List String) (raw : String),
      elemValueText ⟨Tag.p, t, parts⟩ raw = raw) ∧
    extractStructuredData [⟨Tag.h2, "Product title", []⟩, ⟨Tag.p, "Widget X", []⟩]
        ["Product title"]
      = [("Product title", "Widget X")] := by
  refine ⟨?_, ?_, fun t parts raw => rfl, fun t parts raw => rfl, fun t parts raw => rfl,
    by decide⟩
  · intro hv
    simp [pass2Step, hne, hdiff, hv]
  · intro hv
    simp [pass2Step, hne, hdiff, hv]

/-- Witness for C2 on the spec's example. -/
theorem C2_witness :
    pass2Step [] ([], some ⟨"Product title", "product title"⟩) ⟨Tag.p, "Widget X", []⟩
      = (setKV [] "Product title" (elemValueText ⟨Tag.p, "Widget X", []⟩ (jsTrim "Widget X")),
         none) :=
  (C2_label_value [] [] ⟨"Product title", "product title"⟩ ⟨Tag.p, "Widget X", []⟩
    (by decide) (by decide)).1 (by decide)

/-- C8: Duplicate-heading tie-break.  While a label is pending, an element
whose normalized text equals the pending label's normalized text is
skipped without closing the pending state, and the label remains pending
across any run of such elements (or empty-text elements). -/
theorem C8_duplicate_label (kws : List NKeyword) (m : KVMap) (lbl : NKeyword) (e : Elem)
    (hne : jsTrim e.text ≠ "")
    (heq : normalizeText (jsTrim e.text) = lbl.normalized) :
    pass2Step kws (m, some lbl) e = (m, some lbl) ∧
    (∀ l : List Elem,
      (∀ e2 ∈ l, jsTrim e2.text = "" ∨ normalizeText (jsTrim e2.text) = lbl.normalized) →
      l.foldl (pass2Step kws) (m, some lbl) = (m, some lbl)) := by
  constructor
  · simp [pass2Step, hne, heq]
  · intro l
    induction l with
    | nil => intro _; rfl
    | cons e2 t ih =>
      intro hall
      have h2 := hall e2 (List.mem_cons_self e2 t)
      have hstep : pass2Step kws (m, some lbl) e2 = (m, some lbl) := by
        rcases h2 with h2 | h2
        · simp [pass2Step, h2]
        · by_cases hz : jsTrim e2.text = ""
          · simp [pass2Step, hz]
          · simp [pass2Step, hz, h2]
      rw [List.foldl_cons, hstep]
      exact ih (fun e3 he3 => hall e3 (List.mem_cons_of_mem _ he3))

/-- Witness for C8: a repeated `Product title` heading is skipped. -/
theorem C8_witness :
    pass2Step [] ([], some ⟨"Product title", "product title"⟩)
        ⟨Tag.h2, "Product title", []⟩
      = ([], some ⟨"Product title", "product title"⟩) :=
  (C8_duplicate_label [] [] ⟨"Product title", "product title"⟩
    ⟨Tag.h2, "Product title", []⟩ (by decide) (by decide)).1

/-- C10: While a label `A` is pending, label detection is not performed:
an element whose normalized text equals another keyword `B`'s normalized
form (distinct from `A`'s) is consumed as `A`'s value — for a
heading/paragraph element the trimmed text is non-empty, so it is
recorded under `A` and the pending slot is cleared, and `B` does not
become pending.  In particular two consecutive distinct keyword headings
`<h2>Alpha</h2><h2>Beta</h2>` with keywords `["Alpha", "Beta"]` record
`Beta` as `Alpha`'s value. -/
theorem C10_pending_shadows_labels (kws : List NKeyword) (m : KVMap)
    (A B : NKeyword) (e : Elem)
    (hB : B ∈ kws)
    (htag : e.tag = Tag.p ∨ e.tag = Tag.h1 ∨ e.tag = Tag.h2 ∨ e.tag = Tag.h3)
    (hne : jsTrim e.text ≠ "")
    (heqB : normalizeText (jsTrim e.text) = B.normalized)
    (hdiff : B.normalized ≠ A.normalized) :
    pass2Step kws (m, some A) e = (setKV m A.original (jsTrim e.text), none) ∧
    extractStructuredData [⟨Tag.h2, "Alpha", []⟩, ⟨Tag.h2, "Beta", []⟩] ["Alpha", "Beta"]
      = [("Alpha", "Beta")] := by
  constructor
  · have hval : elemValueText e (jsTrim e.text) = jsTrim e.text := by
      rcases htag with h | h | h | h <;> simp [elemValueText, h]
    have hdiffA : normalizeText (jsTrim e.text) ≠ A.normalized := by
      rw [heqB]
      exact hdiff
    simp [pass2Step, hne, hdiffA, hval]
  · decide

/-- Witness for C10 on consecutive `Alpha`/`Beta` headings. -/
theorem C10_witness :
    pass2Step [⟨"Alpha", "alpha"⟩, ⟨"Beta", "beta"⟩]
        ([], some ⟨"Alpha", "alpha"⟩) ⟨Tag.h2, "Beta", []⟩
      = (setKV [] "Alpha" (jsTrim "Beta"), none) :=
  (C10_pending_shadows_labels [⟨"Alpha", "alpha"⟩, ⟨"Beta", "beta"⟩] []
    ⟨"Alpha", "alpha"⟩ ⟨"Beta", "beta"⟩ ⟨Tag.h2, "Beta", []⟩
    (by decide) (by decide) (by decide) (by decide) (by decide)).1

/-- C7: Last-write-wins overwrite order.  Within pass 1 an element
appended after any prefix of the document overwrites whatever earlier
elements recorded for the keyword; the two passes run sequentially into
the same mapping (`extractStructuredData` feeds the pass-1 result into
pass 2); and a pass-2 write for a pending label overwrites any existing
binding (in particular a pass-1 binding) for that keyword.  Concrete
instances: two inline matches keep the later element's value, and a
label/value match overwrites an inline match for the same keyword. -/
theorem C7_last_write_wins :
    (∀ (kw : NKeyword) (l : List Elem) (e : Elem) (v : String),
      jsTrim e.text ≠ "" → inlineValue kw (jsTrim e.text) = some v →
      (pass1 (l ++ [e]) [kw]).lookup kw.original = some v) ∧
    (∀ (elems : List Elem) (ks : List String),
      extractStructuredData elems ks
        = pass2 elems (normalizeKeywords ks) (pass1 elems (normalizeKeywords ks))) ∧
    (∀ (kws : List NKeyword) (m : KVMap) (lbl : NKeyword) (e : Elem),
      jsTrim e.text ≠ "" → normalizeText (jsTrim e.text) ≠ lbl.normalized →
      elemValueText e (jsTrim e.text) ≠ "" →
      ((pass2Step kws (m, some lbl) e).1).lookup lbl.original
        = some (elemValueText e (jsTrim e.text))) ∧
    extractStructuredData [⟨Tag.p, "K: v1", []⟩, ⟨Tag.p, "K: v2", []⟩] ["K"]
      = [("K", "v2")] ∧
    extractStructuredData [⟨Tag.p, "K: v1", []⟩, ⟨Tag.p, "K", []⟩, ⟨Tag.p, "v2", []⟩] ["K"]
      = [("K", "v2")] := by
  refine ⟨?_, fun elems ks => rfl, ?_, by decide, by decide⟩
  · intro kw l e v hne hv
    unfold pass1
    rw [List.foldl_append]
    simp only [List.foldl_cons, List.foldl_nil]
    unfold pass1Elem
    rw [if_neg hne]
    simp only [List.foldl_cons, List.foldl_nil]
    unfold pass1Kw
    rw [hv]
    exact lookup_setKV_self kw.original v _
  · intro kws m lbl e hne hdiff hv
    simp only [pass2Step, if_neg hne]
    rw [if_neg hdiff, if_pos hv]
    exact lookup_setKV_self lbl.original _ m

/-- Witness for C7: the later inline element wins, and a pass-2 write
overwrites an existing pass-1 binding for the same keyword. -/
theorem C7_witness :
    (pass1 ([⟨Tag.p, "K: v1", []⟩] ++ [⟨Tag.p, "K: v2", []⟩]) [⟨"K", "k"⟩]).lookup "K"
      = some "v2" ∧
    ((pass2Step [] ([("K", "v1")], some ⟨"K", "k"⟩) ⟨Tag.p, "v2", []⟩).1).lookup "K"
      = some (elemValueText ⟨Tag.p, "v2", []⟩ (jsTrim "v2")) :=
  ⟨C7_last_write_wins.1 ⟨"K", "k"⟩ [⟨Tag.p, "K: v1", []⟩] ⟨Tag.p, "K: v2", []⟩ "v2"
    (by decide) (by decide),
   C7_last_write_wins.2.2.1 [] [("K", "v1")] ⟨"K", "k"⟩ ⟨Tag.p, "v2", []⟩
    (by decide) (by decide) (by decide)⟩

/-- A value produced by `inlineValue` is non-empty even after another
trim. -/
theorem inlineValue_trim_ne (kw : NKeyword) (raw v : String)
    (h : inlineValue kw raw = some v) : jsTrim v ≠ "" := by
  unfold inlineValue at h
  by_cases hinc : jsIncludes (jsToLower raw) kw.normalized = true
  · rw [if_pos hinc] at h
    rcases hidx : jsIndexOf (jsToLower raw) kw.normalized with _ | idx
    · simp only [hidx] at h
      cases h
    · simp only [hidx] at h
      rcases hci : jsIndexOf (jsSliceFrom raw (idx + kw.normalized.length)) ":" with _ | ci
      · simp only [hci] at h
        cases h
      · simp only [hci] at h
        by_cases hvne :
            jsTrim (jsSliceFrom (jsSliceFrom raw (idx + kw.normalized.length)) (ci + 1)) ≠ ""
        · rw [if_pos hvne] at h
          injection h with h2
          rw [← h2]
          exact jsTrim_jsTrim_ne _ hvne
        · rw [if_neg hvne] at h
          cases h
  · rw [if_neg hinc] at h
    cases h

/-- The data of a non-trivial join starts with the data of its first
component. -/
theorem jsJoin_cons_data (sep x : String) (xs : List String) :
    ∃ rest : List Char, (jsJoin sep (x :: xs)).data = x.data ++ rest := by
  cases xs with
  | nil => exact ⟨[], by simp [jsJoin]⟩
  | cons y ys =>
    refine ⟨sep.data ++ (jsJoin sep (y :: ys)).data, ?_⟩
    show ((x ++ sep) ++ jsJoin sep (y :: ys)).data = _
    rw [String.data_append, String.data_append, List.append_assoc]

/-- A non-empty `" | "` join of non-empty trimmed parts stays non-empty
after a trim. -/
theorem jsTrim_jsJoin_ne (parts : List String)
    (hv : jsJoin " | " ((parts.map jsTrim).filter (fun s => s ≠ "")) ≠ "") :
    jsTrim (jsJoin " | " ((parts.map jsTrim).filter (fun s => s ≠ ""))) ≠ "" := by
  rcases hws : (parts.map jsTrim).filter (fun s => s ≠ "") with _ | ⟨i, r⟩
  · rw [hws] at hv
    simp [jsJoin] at hv
  · have hiF : i ∈ (parts.map jsTrim).filter (fun s => s ≠ "") := by
      rw [hws]
      exact List.mem_cons_self i r
    have hiM : i ∈ parts.map jsTrim := List.mem_of_mem_filter hiF
    have hiNe : i ≠ "" := by simpa using List.of_mem_filter hiF
    obtain ⟨x, _, hxi⟩ := List.mem_map.1 hiM
    have hex : ∃ c ∈ i.data, isWsChar c = false := by
      rw [← hxi]
      exact exists_nonWs_of_jsTrim_ne x (by rw [hxi]; exact hiNe)
    obtain ⟨c, hc, hcw⟩ := hex
    obtain ⟨rest, hdata⟩ := jsJoin_cons_data " | " i r
    apply jsTrim_ne_of_nonWs _ c _ hcw
    rw [hdata]
    exact List.mem_append.2 (Or.inl hc)

/-- A value derived by `elemValueText` from an element with non-empty
trimmed text is non-empty after a trim whenever it is non-empty. -/
theorem elemValueText_trim_ne (e : Elem) (hz : jsTrim e.text ≠ "")
    (hv : elemValueText e (jsTrim e.text) ≠ "") :
    jsTrim (elemValueText e (jsTrim e.text)) ≠ "" := by
  rcases htag : e.tag with _ | _ | _ | _ | _ | _ <;>
    simp only [elemValueText, htag] at hv ⊢
  · exact jsTrim_jsTrim_ne _ hz
  · exact jsTrim_jsTrim_ne _ hz
  · exact jsTrim_jsTrim_ne _ hz
  · exact jsTrim_jsTrim_ne _ hz
  · exact jsTrim_jsJoin_ne e.parts hv
  · exact jsTrim_jsJoin_ne e.parts hv

/-- `pass1Kw` preserves the well-formedness of the mapping. -/
theorem pass1Kw_pres (raw : String) (kw : NKeyword) (m : KVMap)
    (hm : ∀ q ∈ m, jsTrim q.2 ≠ "") : ∀ q ∈ pass1Kw raw m kw, jsTrim q.2 ≠ "" := by
  intro q hq
  unfold pass1Kw at hq
  rcases hv : inlineValue kw raw with _ | v
  · rw [hv] at hq
    exact hm q hq
  · rw [hv] at hq
    rcases mem_setKV _ _ _ _ hq with h | h
    · exact hm q h
    · rw [h]
      exact inlineValue_trim_ne kw raw v hv

/-- The keyword fold of pass 1 preserves well-formedness. -/
theorem foldl_pass1Kw_pres (raw : String) :
    ∀ (ks : List NKeyword) (m : KVMap), (∀ q ∈ m, jsTrim q.2 ≠ "") →
      ∀ q ∈ ks.foldl (pass1Kw raw) m, jsTrim q.2 ≠ "" := by
  intro ks
  induction ks with
  | nil =>
    intro m hm
    simpa using hm
  | cons kw t ih =>
    intro m hm
    rw [List.foldl_cons]
    exact ih _ (pass1Kw_pres raw kw m hm)

/-- The element fold of pass 1 preserves well-formedness. -/
theorem foldl_pass1Elem_pres (kws : List NKeyword) :
    ∀ (elems : List Elem) (m : KVMap), (∀ q ∈ m, jsTrim q.2 ≠ "") →
      ∀ q ∈ elems.foldl (pass1Elem kws) m, jsTrim q.2 ≠ "" := by
  intro elems
  induction elems with
  | nil =>
    intro m hm
    simpa using hm
  | cons e t ih =>
    intro m hm
    rw [List.foldl_cons]
    apply ih
    unfold pass1Elem
    by_cases hz : jsTrim e.text = ""
    · rw [if_pos hz]
      exact hm
    · rw [if_neg hz]
      exact foldl_pass1Kw_pres (jsTrim e.text) kws m hm

/-- One step of pass 2 preserves well-formedness of the mapping. -/
theorem pass2Step_pres (kws : List NKeyword) (st : KVMap × Option NKeyword) (e : Elem)
    (hm : ∀ q ∈ st.1, jsTrim q.2 ≠ "") : ∀ q ∈ (pass2Step kws st e).1, jsTrim q.2 ≠ "" := by
  obtain ⟨m, pending⟩ := st
  by_cases hz : jsTrim e.text = ""
  · simp only [pass2Step, if_pos hz]
    exact hm
  · rcases pending with _ | lbl
    · simp only [pass2Step, if_neg hz]
      rcases hf : findLabel kws (normalizeText (jsTrim e.text)) (jsTrim e.text) with _ | kw <;>
        simp only [hf] <;> exact hm
    · simp only [pass2Step, if_neg hz]
      by_cases hdup : normalizeText (jsTrim e.text) = lbl.normalized
      · rw [if_pos hdup]
        exact hm
      · rw [if_neg hdup]
        by_cases hv : elemValueText e (jsTrim e.text) ≠ ""
        · rw [if_pos hv]
          intro q hq
          rcases mem_setKV _ _ _ _ hq with h | h
          · exact hm q h
          · rw [h]
            exact elemValueText_trim_ne e hz hv
        · rw [if_neg hv]
          exact hm

/-- The element fold of pass 2 preserves well-formedness. -/
theorem foldl_pass2Step_pres (kws : List NKeyword) :
    ∀ (elems : List Elem) (st : KVMap × Option NKeyword), (∀ q ∈ st.1, jsTrim q.2 ≠ "") →
      ∀ q ∈ (elems.foldl (pass2Step kws) st).1, jsTrim q.2 ≠ "" := by
  intro elems
  induction elems with
  | nil =>
    intro st hm
    simpa using hm
  | cons e t ih =>
    intro st hm
    rw [List.foldl_cons]
    exact ih _ (pass2Step_pres kws st e hm)

/-- If no keyword ever produces an inline value against any element of
the document, pass 1 leaves the mapping unchanged. -/
theorem foldl_pass1Elem_unmatched (kws : List NKeyword) :
    ∀ (elems : List Elem) (m : KVMap),
      (∀ e ∈ elems, ∀ kw ∈ kws, inlineValue kw (jsTrim e.text) = none) →
      elems.foldl (pass1Elem kws) m = m := by
  have hkw : ∀ (raw : String) (ks : List NKeyword) (m : KVMap),
      (∀ kw ∈ ks, inlineValue kw raw = none) → ks.foldl (pass1Kw raw) m = m := by
    intro raw ks
    induction ks with
    | nil =>
      intro m _
      rfl
    | cons kw t ih =>
      intro m hall
      rw [List.foldl_cons]
      have hstep : pass1Kw raw m kw = m := by
        unfold pass1Kw
        rw [hall kw (List.mem_cons_self kw t)]
      rw [hstep]
      exact ih m (fun kw2 hkw2 => hall kw2 (List.mem_cons_of_mem _ hkw2))
  intro elems
  induction elems with
  | nil =>
    intro m _
    rfl
  | cons e t ih =>
    intro m hall
    rw [List.foldl_cons]
    have hstep : pass1Elem kws m e = m := by
      unfold pass1Elem
      by_cases hz : jsTrim e.text = ""
      · rw [if_pos hz]
      · rw [if_neg hz]
        exact hkw (jsTrim e.text) kws m (hall e (List.mem_cons_self e t))
    rw [hstep]
    exact ih m (fun e2 he2 => hall e2 (List.mem_cons_of_mem _ he2))

/-- If no element of the document qualifies as a label for any keyword,
pass 2 never opens a pending label and leaves the mapping unchanged. -/
theorem foldl_pass2Step_unmatched (kws : List NKeyword) :
    ∀ (elems : List Elem) (m : KVMap),
      (∀ e ∈ elems, ∀ kw ∈ kws,
        ¬(normalizeText (jsTrim e.text) = kw.normalized ∧
          jsIncludes (jsTrim e.text) ":" = false)) →
      elems.foldl (pass2Step kws) (m, none) = (m, none) := by
  intro elems
  induction elems with
  | nil =>
    intro m _
    rfl
  | cons e t ih =>
    intro m hall
    rw [List.foldl_cons]
    have hfind : findLabel kws (normalizeText (jsTrim e.text)) (jsTrim e.text) = none := by
      unfold findLabel
      rw [List.find?_eq_none]
      intro kw hkw hcond
      rw [Bool.and_eq_true, beq_iff_eq, Bool.not_eq_true'] at hcond
      exact hall e (List.mem_cons_self e t) kw hkw ⟨hcond.1, hcond.2⟩
    have hstep : pass2Step kws (m, none) e = (m, none) := by
      by_cases hz : jsTrim e.text = ""
      · simp only [pass2Step, if_pos hz]
      · simp only [pass2Step, if_neg hz, hfind]
    rw [hstep]
    exact ih m (fun e2 he2 => hall e2 (List.mem_cons_of_mem _ he2))

/-- C9: Well-formedness of the output mapping.  Every value in the
mapping returned by `extractStructuredData` is non-empty after trimming,
and a single supplied keyword matched by neither the inline pattern (no
element text yields an inline value for it) nor the label/value pattern
(no element is a pure colon-free label for it) is entirely absent from
the mapping. -/
theorem C9_wellformed :
    (∀ (elems : List Elem) (ks : List String) (q : String × String),
      q ∈ extractStructuredData elems ks → jsTrim q.2 ≠ "") ∧
    (∀ (elems : List Elem) (k : String),
      (∀ e ∈ elems, inlineValue ⟨k, jsTrim (jsToLower k)⟩ (jsTrim e.text) = none) →
      (∀ e ∈ elems,
        ¬(normalizeText (jsTrim e.text) = jsTrim (jsToLower k) ∧
          jsIncludes (jsTrim e.text) ":" = false)) →
      (extractStructuredData elems [k]).lookup k = none) := by
  constructor
  · intro elems ks q hq
    have h1 : ∀ q2 ∈ pass1 elems (normalizeKeywords ks), jsTrim q2.2 ≠ "" := by
      unfold pass1
      exact foldl_pass1Elem_pres (normalizeKeywords ks) elems [] (by intro q2 hq2; cases hq2)
    have h2 := foldl_pass2Step_pres (normalizeKeywords ks) elems
      (pass1 elems (normalizeKeywords ks), none) h1
    exact h2 q hq
  · intro elems k hinline hlabel
    by_cases hk : jsTrim k = ""
    · have hnil : normalizeKeywords [k] = [] := by
        simp [normalizeKeywords, hk]
      show (pass2 elems (normalizeKeywords [k]) (pass1 elems (normalizeKeywords [k]))).lookup k
          = none
      rw [hnil]
      have hp1 : pass1 elems [] = [] :=
        foldl_pass1Elem_unmatched [] elems [] (by intro e _ kw hkw; cases hkw)
      unfold pass2
      rw [hp1, foldl_pass2Step_unmatched [] elems [] (by intro e _ kw hkw; cases hkw)]
      rfl
    · have hone : normalizeKeywords [k] = [⟨k, jsTrim (jsToLower k)⟩] := by
        simp [normalizeKeywords, hk]
      show (pass2 elems (normalizeKeywords [k]) (pass1 elems (normalizeKeywords [k]))).lookup k
          = none
      rw [hone]
      have hp1 : pass1 elems [⟨k, jsTrim (jsToLower k)⟩] = [] := by
        apply foldl_pass1Elem_unmatched
        intro e he kw hkw
        rw [List.mem_singleton] at hkw
        rw [hkw]
        exact hinline e he
      unfold pass2
      rw [hp1, foldl_pass2Step_unmatched _ elems []
        (by
          intro e he kw hkw
          rw [List.mem_singleton] at hkw
          rw [hkw]
          exact hlabel e he)]
      rfl

/-- Witness for C9: a recorded value is non-empty after trimming, and an
unmatched keyword is absent. -/
theorem C9_witness :
    jsTrim "John Doe" ≠ "" ∧
    (extractStructuredData [⟨Tag.p, "hello", []⟩] ["Missing"]).lookup "Missing" = none :=
  ⟨C9_wellformed.1 [⟨Tag.p, "Customer Name: John Doe", []⟩] ["Customer Name"]
      ("Customer Name", "John Doe") (by decide),
   C9_wellformed.2 [⟨Tag.p, "hello", []⟩] "Missing" (by decide) (by decide)⟩

/-- A list is a `isPrefixOf`-prefix of itself followed by anything. -/
theorem isPrefixOf_append_self (l m : List Char) : l.isPrefixOf (l ++ m) = true :=
  List.isPrefixOf_iff_prefix.2 ⟨m, rfl⟩

/-- `takeWhile` stops exactly at the first failing element when all
earlier elements satisfy the predicate. -/
theorem takeWhile_middle (p : Char → Bool) :
    ∀ (l : List Char) (x : Char) (r : List Char),
      (∀ c ∈ l, p c = true) → p x = false →
      (l ++ x :: r).takeWhile p = l := by
  intro l
  induction l with
  | nil =>
    intro x r _ hx
    rw [List.nil_append, List.takeWhile_cons, if_neg (by rw [hx]; exact Bool.false_ne_true)]
  | cons a t ih =>
    intro x r hall hx
    have ha : p a = true := hall a (List.mem_cons_self a t)
    rw [List.cons_append, List.takeWhile_cons, if_pos ha,
      ih x r (fun c hc => hall c (List.mem_cons_of_mem _ hc)) hx]

/-- `matchAfterScheme` succeeds on the core followed by a slash-free
non-empty ID and a slash, capturing exactly the ID. -/
theorem matchAfterScheme_append (id rest : List Char)
    (hid : id ≠ []) (hns : ∀ c ∈ id, c ≠ '/') :
    matchAfterScheme (gdocCore.data ++ (id ++ '/' :: rest)) = some id := by
  unfold matchAfterScheme
  rw [if_pos (isPrefixOf_append_self gdocCore.data (id ++ '/' :: rest))]
  rw [List.drop_left]
  rw [takeWhile_middle _ id '/' rest
    (fun c hc => decide_eq_true (hns c hc)) (by decide)]
  rw [if_neg (by simpa [List.isEmpty_iff] using hid)]

/-- `tryMatchAt` succeeds at the start of an `https` URL of the expected
shape. -/
theorem tryMatchAt_https (id rest : List Char)
    (hid : id ≠ []) (hns : ∀ c ∈ id, c ≠ '/') :
    tryMatchAt (("https://docs.google.com/document/d/").data ++ (id ++ '/' :: rest))
      = some id := by
  have h1 : ("https://docs.google.com/document/d/").data
      = 'h' :: 't' :: 't' :: 'p' :: 's' :: gdocCore.data := by decide
  rw [h1]
  simp only [List.cons_append]
  show matchAfterScheme (gdocCore.data ++ (id ++ '/' :: rest)) = some id
  exact matchAfterScheme_append id rest hid hns

/-- `tryMatchAt` succeeds at the start of an `http` URL of the expected
shape. -/
theorem tryMatchAt_http (id rest : List Char)
    (hid : id ≠ []) (hns : ∀ c ∈ id, c ≠ '/') :
    tryMatchAt (("http://docs.google.com/document/d/").data ++ (id ++ '/' :: rest))
      = some id := by
  have hred : ∀ X : List Char,
      tryMatchAt ('h' :: 't' :: 't' :: 'p' :: ':' :: X) = matchAfterScheme (':' :: X) :=
    fun X => rfl
  have h1 : ("http://docs.google.com/document/d/").data ++ (id ++ '/' :: rest)
      = 'h' :: 't' :: 't' :: 'p' :: ':' ::
          (("//docs.google.com/document/d/").data ++ (id ++ '/' :: rest)) := by
    rw [show ("http://docs.google.com/document/d/").data
        = 'h' :: 't' :: 't' :: 'p' :: ':' :: ("//docs.google.com/document/d/").data from by
      decide]
    rfl
  have h2 : ':' :: (("//docs.google.com/document/d/").data ++ (id ++ '/' :: rest))
      = gdocCore.data ++ (id ++ '/' :: rest) := by
    rw [show gdocCore.data = ':' :: ("//docs.google.com/document/d/").data from by decide]
    rfl
  rw [h1, hred, h2]
  exact matchAfterScheme_append id rest hid hns

/-- A match at the head of the search list is the result of the
unanchored search. -/
theorem regexSearchGDoc_cons_of_match (c : Char) (t cap : List Char)
    (h : tryMatchAt (c :: t) = some cap) : regexSearchGDoc (c :: t) = some cap := by
  simp only [regexSearchGDoc, h]

/-- A successful unanchored search means the pattern matched at some
split of the input. -/
theorem regexSearchGDoc_some :
    ∀ (l cap : List Char), regexSearchGDoc l = some cap →
      ∃ pre l2 : List Char, l = pre ++ l2 ∧ tryMatchAt l2 = some cap := by
  intro l
  induction l with
  | nil =>
    intro cap h
    cases h
  | cons c t ih =>
    intro cap h
    rcases ht : tryMatchAt (c :: t) with _ | cap2
    · simp only [regexSearchGDoc, ht] at h
      obtain ⟨pre, l2, heq, hm⟩ := ih cap h
      exact ⟨c :: pre, l2, by rw [heq, List.cons_append], hm⟩
    · simp only [regexSearchGDoc, ht, Option.some.injEq] at h
      subst h
      exact ⟨[], c :: t, rfl, ht⟩

/-- A successful `tryMatchAt` splits its input into a scheme and a
remainder on which the rest of the pattern matches. -/
theorem tryMatchAt_some (l cap : List Char) (h : tryMatchAt l = some cap) :
    ∃ sch rest : List Char, (sch = ("http").data ∨ sch = ("https").data) ∧
      l = sch ++ rest ∧ matchAfterScheme rest = some cap := by
  unfold tryMatchAt at h
  split at h
  · rename_i rest
    exact ⟨("https").data, rest, Or.inr rfl, rfl, h⟩
  · rename_i rest hcon
    exact ⟨("http").data, rest, Or.inl rfl, rfl, h⟩
  · cases h

/-- A successful `matchAfterScheme` decomposes its input as the core, a
non-empty slash-free capture and a suffix. -/
theorem matchAfterScheme_some (r cap : List Char) (h : matchAfterScheme r = some cap) :
    cap ≠ [] ∧ (∀ c ∈ cap, c ≠ '/') ∧ ∃ suf, r = gdocCore.data ++ (cap ++ suf) := by
  unfold matchAfterScheme at h
  by_cases hp : gdocCore.data.isPrefixOf r = true
  · rw [if_pos hp] at h
    by_cases he : ((r.drop gdocCore.data.length).takeWhile (fun c => c ≠ '/')).isEmpty = true
    · rw [if_pos he] at h
      cases h
    · rw [if_neg he] at h
      injection h with h2
      subst h2
      refine ⟨?_, ?_, ?_⟩
      · intro h0
        rw [List.isEmpty_iff] at he
        exact he h0
      · intro c hc
        have hdec := List.mem_takeWhile_imp hc
        simp only [decide_eq_true_eq] at hdec
        exact hdec
      · obtain ⟨t, ht⟩ := List.isPrefixOf_iff_prefix.1 hp
        refine ⟨(r.drop gdocCore.data.length).dropWhile (fun c => c ≠ '/'), ?_⟩
        have hdrop : r.drop gdocCore.data.length = t := by
          rw [← ht, List.drop_left]
        rw [List.takeWhile_append_dropWhile (fun c => decide (c ≠ '/'))
          (r.drop gdocCore.data.length), hdrop, ht]
  · rw [if_neg hp] at h
    cases h

/-- Any string accepted by `extractDocId` contains the URL pattern. -/
theorem extractDocId_ok_pattern (u : String) (id : String)
    (h : extractDocId u = Except.ok id) : gdocPattern u := by
  unfold extractDocId at h
  by_cases hz : jsTrim u = ""
  · rw [if_pos hz] at h
    cases h
  · rw [if_neg hz] at h
    rcases hr : regexSearchGDoc u.data with _ | cap
    · simp only [hr] at h
      cases h
    · simp only [hr] at h
      obtain ⟨pre, l2, heq, hm⟩ := regexSearchGDoc_some u.data cap hr
      obtain ⟨sch, rest, hsch, hl2, hms⟩ := tryMatchAt_some l2 cap hm
      obtain ⟨hcap, hnoslash, suf, hrest⟩ := matchAfterScheme_some rest cap hms
      refine ⟨pre, sch, cap, suf, hsch, hcap, hnoslash, ?_⟩
      rw [heq, hl2, hrest]
      simp [List.append_assoc]

/-- `extractDocId` succeeds on a well-shaped URL built from a prefix
whose data starts with a known head character. -/
theorem extractDocId_ok_of (pfx : String) (id rest : String) (t : List Char)
    (hhead : pfx.data = 'h' :: t)
    (hmatch : tryMatchAt (pfx.data ++ (id.data ++ '/' :: rest.data)) = some id.data) :
    extractDocId (pfx ++ id ++ "/" ++ rest) = Except.ok id := by
  have hdata : (pfx ++ id ++ "/" ++ rest).data = pfx.data ++ (id.data ++ '/' :: rest.data) := by
    rw [String.data_append, String.data_append, String.data_append]
    rw [show ("/" : String).data = ['/'] from rfl]
    simp [List.append_assoc]
  have htrim : jsTrim (pfx ++ id ++ "/" ++ rest) ≠ "" := by
    apply jsTrim_ne_of_nonWs _ 'h'
    · rw [hdata, hhead, List.cons_append]
      exact List.mem_cons_self 'h' _
    · decide
  unfold extractDocId
  rw [if_neg htrim, hdata, hhead, List.cons_append]
  rw [regexSearchGDoc_cons_of_match 'h' (t ++ (id.data ++ '/' :: rest.data)) id.data
    (by rw [← List.cons_append, ← hhead]; exact hmatch)]

/-- C3: `extractDocId`.  For every URL of the form
`http(s)://docs.google.com/document/d/ID/...` with `ID` non-empty and
slash-free, the function returns exactly `ID`; for every string in which
the pattern occurs nowhere (`gdocPattern`), and for the empty string, it
fails with one of the two invalid-input errors. -/
theorem C3_extractDocId :
    (∀ id rest : String, id.data ≠ [] → (∀ c ∈ id.data, c ≠ '/') →
      extractDocId ("https://docs.google.com/document/d/" ++ id ++ "/" ++ rest)
        = Except.ok id ∧
      extractDocId ("http://docs.google.com/document/d/" ++ id ++ "/" ++ rest)
        = Except.ok id) ∧
    (∀ u : String, ¬ gdocPattern u →
      extractDocId u = Except.error "Invalid URL: URL must be a non-empty string." ∨
      extractDocId u = Except.error "Invalid Google Docs URL: Unable to extract document ID.") ∧
    extractDocId "" = Except.error "Invalid URL: URL must be a non-empty string." := by
  refine ⟨?_, ?_, rfl⟩
  · intro id rest hid hns
    constructor
    · exact extractDocId_ok_of "https://docs.google.com/document/d/" id rest
        ("ttps://docs.google.com/document/d/").data (by decide)
        (tryMatchAt_https id.data rest.data hid hns)
    · exact extractDocId_ok_of "http://docs.google.com/document/d/" id rest
        ("ttp://docs.google.com/document/d/").data (by decide)
        (tryMatchAt_http id.data rest.data hid hns)
  · intro u hnp
    by_cases hz : jsTrim u = ""
    · left
      unfold extractDocId
      rw [if_pos hz]
    · right
      unfold extractDocId
      rw [if_neg hz]
      rcases hr : regexSearchGDoc u.data with _ | cap
    -- no-match case: the else branch of the match reduces to the error
      · rfl
      · exfalso
        apply hnp
        apply extractDocId_ok_pattern u ⟨cap⟩
        unfold extractDocId
        rw [if_neg hz]
        simp only [hr]

/-- Witness for C3: a concrete well-formed URL succeeds and a concrete
non-matching string fails with an invalid-input error. -/
theorem C3_witness :
    (extractDocId ("https://docs.google.com/document/d/" ++ "1ABC123XYZ" ++ "/" ++ "edit")
        = Except.ok "1ABC123XYZ" ∧
      extractDocId ("http://docs.google.com/document/d/" ++ "1ABC123XYZ" ++ "/" ++ "edit")
        = Except.ok "1ABC123XYZ") ∧
    (extractDocId "nope" = Except.error "Invalid URL: URL must be a non-empty string." ∨
      extractDocId "nope"
        = Except.error "Invalid Google Docs URL: Unable to extract document ID.") :=
  ⟨C3_extractDocId.1 "1ABC123XYZ" "edit" (by decide) (by decide),
   C3_extractDocId.2.1 "nope" (by
     rintro ⟨pre, sOpt, id, suf, hsch, hid, hns, heq⟩
     have hlen := congrArg List.length heq
     rw [List.length_append, List.length_append, List.length_append,
       List.length_append] at hlen
     have h1 : ("nope" : String).data.length = 4 := by decide
     have h2 : gdocCore.data.length = 30 := by decide
     have h4 : 0 < id.length := List.length_pos.2 hid
     rcases hsch with h3 | h3 <;> rw [h3] at hlen
     · have h5 : ("http" : String).data.length = 4 := by decide
       rw [h1, h2, h5] at hlen
       omega
     · have h5 : ("https" : String).data.length = 5 := by decide
       rw [h1, h2, h5] at hlen
       omega)⟩

/-- C4 (code bug): `downloadDoc`'s `validateStatus` only accepts statuses
in `[200, 400)`, so a 401/403 response is raised by the HTTP client as a
transport error whose message (`Request failed with status code N`) does
not contain `unauthorized access`; the catch block therefore wraps it in
the generic failed-to-download message instead of the claimed
Unauthorized-access error, whose branch in the `try` block is
unreachable.  The remaining outcomes behave as claimed: a non-DOCX
content type yields the unexpected-response message (wrapped by the same
catch block), a 404 yields the not-found message, and any other
transport failure yields the generic wrapped message. -/
theorem C4_downloadDoc_classification :
    downloadDoc (HttpResult.response 401 (some docxMime))
      = Except.error
          "Failed to download document from Google Docs: Request failed with status code 401" ∧
    downloadDoc (HttpResult.response 403 (some docxMime))
      = Except.error
          "Failed to download document from Google Docs: Request failed with status code 403" ∧
    downloadDoc (HttpResult.response 200 (some "text/html"))
      = Except.error
          "Failed to download document from Google Docs: Unexpected response from Google Docs. The document may not be publicly accessible or the URL may be invalid." ∧
    downloadDoc (HttpResult.response 404 none)
      = Except.error "Document not found: Please verify the Google Docs URL." ∧
    downloadDoc (HttpResult.netError "socket hang up")
      = Except.error "Failed to download document from Google Docs: socket hang up" ∧
    downloadDoc (HttpResult.response 200 (some docxMime)) = Except.ok () := by
  refine ⟨?_, ?_, ?_, ?_, ?_, ?_⟩ <;> decide

/-- The `catch` block rethrows an error whose message already contains
`unauthorized access` unchanged, rather than wrapping it — the edge case
that breaks the claimed generic-wrap rule for "any other failure". -/
theorem downloadCatch_rethrows_unauthorized :
    downloadDoc (HttpResult.netError "Unauthorized access happened")
      = Except.error "Unauthorized access happened" := by
  decide

/-- C5 counterexample: a request body whose `keywords` field is present
but `null` (falsy) skips the array validation entirely, so a present
non-array `keywords` does not always yield status 400. -/
theorem C5_counterexample :
    isArrayV (some JVal.jnull) = false ∧
    (parseDocResponse ⟨some (JVal.jstr "u"), some JVal.jnull⟩ (Except.ok ())).1 ≠ 400 := by
  decide

/-- C5 (amended): a missing or non-string `url` yields 400; a present
**truthy** non-array `keywords` yields 400 (falsy values such as `null`,
`0`, `""` or `false` are treated as absent); when validation passes and
processing fails with a non-empty message, the response is the status
chosen by `mapErrorStatus` together with the message as error body; and
`mapErrorStatus` checks, in order: `Unauthorized access` /
`not publicly accessible` → 403, `Document not found` → 404,
`Invalid Google Docs URL` → 400, otherwise 500. -/
theorem C5_amended_endpoint_mapping :
    (∀ (body : ReqBody) (outcome : Except String Unit),
      isStringV body.url = false → (parseDocResponse body outcome).1 = 400) ∧
    (∀ (body : ReqBody) (outcome : Except String Unit),
      truthyOpt body.keywords = true → isArrayV body.keywords = false →
      (parseDocResponse body outcome).1 = 400) ∧
    (∀ (body : ReqBody) (msg : String),
      truthyOpt body.url = true → isStringV body.url = true →
      (truthyOpt body.keywords = true → isArrayV body.keywords = true) →
      msg ≠ "" →
      parseDocResponse body (Except.error msg) = (mapErrorStatus msg, some msg)) ∧
    (∀ msg : String,
      ((jsIncludes msg "Unauthorized access" || jsIncludes msg "not publicly accessible")
          = true → mapErrorStatus msg = 403) ∧
      ((jsIncludes msg "Unauthorized access" || jsIncludes msg "not publicly accessible")
          = false → jsIncludes msg "Document not found" = true →
        mapErrorStatus msg = 404) ∧
      ((jsIncludes msg "Unauthorized access" || jsIncludes msg "not publicly accessible")
          = false → jsIncludes msg "Document not found" = false →
        jsIncludes msg "Invalid Google Docs URL" = true → mapErrorStatus msg = 400) ∧
      ((jsIncludes msg "Unauthorized access" || jsIncludes msg "not publicly accessible")
          = false → jsIncludes msg "Document not found" = false →
        jsIncludes msg "Invalid Google Docs URL" = false → mapErrorStatus msg = 500)) := by
  refine ⟨?_, ?_, ?_, ?_⟩
  · intro body outcome h
    simp [parseDocResponse, h]
  · intro body outcome hk1 hk2
    by_cases hu : (!(truthyOpt body.url) || !(isStringV body.url)) = true
    · simp [parseDocResponse, hu]
    · simp only [parseDocResponse, hu]
      rw [if_neg (by simpa using hu)]
      rw [if_pos (by rw [hk1, hk2]; rfl)]
  · intro body msg hu1 hu2 hk hmsg
    have h1 : (!(truthyOpt body.url) || !(isStringV body.url)) = false := by
      rw [hu1, hu2]
      rfl
    have h2 : (truthyOpt body.keywords && !(isArrayV body.keywords)) = false := by
      rcases ht : truthyOpt body.keywords with _ | _
      · rfl
      · rw [hk ht]
        rfl
    unfold parseDocResponse
    rw [if_neg (by rw [h1]; exact Bool.false_ne_true),
      if_neg (by rw [h2]; exact Bool.false_ne_true)]
    show (mapErrorStatus (if msg = "" then "Unknown error" else msg),
          some (if msg = "" then "Unknown error" else msg)) = (mapErrorStatus msg, some msg)
    rw [if_neg hmsg]
  · intro msg
    refine ⟨?_, ?_, ?_, ?_⟩
    · intro h1
      simp [mapErrorStatus, h1]
    · intro h1 h2
      simp [mapErrorStatus, h1, h2]
    · intro h1 h2 h3
      simp [mapErrorStatus, h1, h2, h3]
    · intro h1 h2 h3
      simp [mapErrorStatus, h1, h2, h3]

/-- Witness for C5 (amended) at concrete requests. -/
theorem C5_witness :
    (parseDocResponse ⟨none, none⟩ (Except.ok ())).1 = 400 ∧
    (parseDocResponse ⟨some (JVal.jstr "u"), some (JVal.jstr "bad")⟩ (Except.ok ())).1 = 400 ∧
    parseDocResponse ⟨some (JVal.jstr "u"), some JVal.jarr⟩
        (Except.error "Document not found: Please verify the Google Docs URL.")
      = (mapErrorStatus "Document not found: Please verify the Google Docs URL.",
         some "Document not found: Please verify the Google Docs URL.") ∧
    mapErrorStatus "Unauthorized access: x" = 403 :=
  ⟨C5_amended_endpoint_mapping.1 ⟨none, none⟩ (Except.ok ()) (by decide),
   C5_amended_endpoint_mapping.2.1 ⟨some (JVal.jstr "u"), some (JVal.jstr "bad")⟩
     (Except.ok ()) (by decide) (by decide),
   C5_amended_endpoint_mapping.2.2.1 ⟨some (JVal.jstr "u"), some JVal.jarr⟩
     "Document not found: Please verify the Google Docs URL." (by decide) (by decide)
     (fun _ => by decide) (by decide),
   (C5_amended_endpoint_mapping.2.2.2 "Unauthorized access: x").1 (by decide)⟩

/-- C6 counterexample: a whitespace-only `url` string passes the
endpoint's validation (it is a truthy string), fails inside the parser
with the `Invalid URL: URL must be a non-empty string.` message — an
invalid-input error — and is mapped to status 500, not 400. -/
theorem C6_counterexample :
    extractDocId "   " = Except.error "Invalid URL: URL must be a non-empty string." ∧
    truthy (JVal.jstr "   ") = true ∧
    (parseDocResponse ⟨some (JVal.jstr "   "), none⟩
        (Except.error "Invalid URL: URL must be a non-empty string.")).1 = 500 := by
  decide

/-- C6 (amended): a request failing body validation (non-string `url` or
truthy non-array `keywords`) receives 400, and a request whose
processing fails with the `Invalid Google Docs URL` extraction error
receives 400; the other `extractDocId` failure message
(`Invalid URL: URL must be a non-empty string.`, produced by a
whitespace-only `url`) is instead mapped to 500. -/
theorem C6_amended_invalid_input_400 :
    (∀ (body : ReqBody) (outcome : Except String Unit),
      isStringV body.url = false ∨
        (truthyOpt body.keywords = true ∧ isArrayV body.keywords = false) →
      (parseDocResponse body outcome).1 = 400) ∧
    (∀ url : String,
      extractDocId url = Except.error "Invalid Google Docs URL: Unable to extract document ID." →
      (parseDocResponse ⟨some (JVal.jstr url), none⟩
        (Except.error "Invalid Google Docs URL: Unable to extract document ID.")).1 = 400) := by
  constructor
  · intro body outcome h
    rcases h with h | ⟨h1, h2⟩
    · simp [parseDocResponse, h]
    · by_cases hu : (!(truthyOpt body.url) || !(isStringV body.url)) = true
      · simp [parseDocResponse, hu]
      · simp only [parseDocResponse, hu]
        rw [if_neg (by simpa using hu)]
        rw [if_pos (by rw [h1, h2]; rfl)]
  · intro url hurl
    have hne : url ≠ "" := by
      intro h0
      subst h0
      exact absurd hurl (by decide)
    have h1 : (!(truthyOpt (some (JVal.jstr url))) || !(isStringV (some (JVal.jstr url))))
        = false := by
      simp [truthyOpt, truthy, isStringV, hne]
    unfold parseDocResponse
    rw [if_neg (by rw [h1]; exact Bool.false_ne_true)]
    rw [if_neg (by intro hc; exact Bool.false_ne_true hc)]
    show (mapErrorStatus (if ("Invalid Google Docs URL: Unable to extract document ID." : String)
            = "" then "Unknown error"
          else "Invalid Google Docs URL: Unable to extract document ID."),
        some (if ("Invalid Google Docs URL: Unable to extract document ID." : String) = ""
            then "Unknown error"
          else "Invalid Google Docs URL: Unable to extract document ID.")).1 = 400
    rw [if_neg (by decide : ¬(("Invalid Google Docs URL: Unable to extract document ID." : String) = ""))]
    decide

/-- Witness for C6 (amended) at concrete requests. -/
theorem C6_witness :
    (parseDocResponse ⟨some (JVal.jnum 7), none⟩ (Except.ok ())).1 = 400 ∧
    (parseDocResponse ⟨some (JVal.jstr "nope"), none⟩
      (Except.error "Invalid Google Docs URL: Unable to extract document ID.")).1 = 400 :=
  ⟨C6_amended_invalid_input_400.1 ⟨some (JVal.jnum 7), none⟩ (Except.ok ())
     (Or.inl (by decide)),
   C6_amended_invalid_input_400.2 "nope" (by decide)⟩
